import Mathlib

/-!
Verification development for the quantum-ghost core of QGhostBusters
(`src/Units/ghosts.py`).

The amplitude state of a `QGhost` is kept by the source in the qutip
representation: one tensor factor of dimension `MAX_GHOSTS_PER_STATE` per
visible part, occupation number `0` meaning "the ghost is not at this part's
location" (that is the convention the source's own attack projector
`ket([0], MAX_GHOSTS_PER_STATE).dag()` uses).  The spec reads the same state
in the slot basis: one complex amplitude per visible part, slot `i` meaning
"the ghost really is at part `i`".  We embed the state in that slot basis as
a list of amplitudes.  All amplitudes reachable through the beam-splitter
operations lie in `ℚ` adjoined with `√2`, so amplitudes are represented
exactly by pairs of rationals, and norms are interpreted in `ℝ` only at the
statement level.
-/

/-- An element `re + im * √2` of `ℚ` adjoined with `√2`; the exact field in
which every reachable amplitude of the embedded quantum state lives. -/
@[ext]
structure Q2 where
  re : ℚ
  im : ℚ
deriving DecidableEq

instance : Zero Q2 :=
  ⟨⟨0, 0⟩⟩

@[simp]
theorem Q2.zero_re : (0 : Q2).re = 0 := rfl

@[simp]
theorem Q2.zero_im : (0 : Q2).im = 0 := rfl

instance : One Q2 :=
  ⟨⟨1, 0⟩⟩

@[simp]
theorem Q2.one_re : (1 : Q2).re = 1 := rfl

@[simp]
theorem Q2.one_im : (1 : Q2).im = 0 := rfl

instance : Add Q2 :=
  ⟨fun x y => ⟨x.re + y.re, x.im + y.im⟩⟩

@[simp]
theorem Q2.add_re (x y : Q2) : (x + y).re = x.re + y.re := rfl

@[simp]
theorem Q2.add_im (x y : Q2) : (x + y).im = x.im + y.im := rfl

instance : Neg Q2 :=
  ⟨fun x => ⟨-x.re, -x.im⟩⟩

@[simp]
theorem Q2.neg_re (x : Q2) : (-x).re = -x.re := rfl

@[simp]
theorem Q2.neg_im (x : Q2) : (-x).im = -x.im := rfl

instance : Mul Q2 :=
  ⟨fun x y => ⟨x.re * y.re + 2 * x.im * y.im, x.re * y.im + x.im * y.re⟩⟩

@[simp]
theorem Q2.mul_re (x y : Q2) : (x * y).re = x.re * y.re + 2 * x.im * y.im := rfl

@[simp]
theorem Q2.mul_im (x y : Q2) : (x * y).im = x.re * y.im + x.im * y.re := rfl

instance Q2.addCommGroup : AddCommGroup Q2 := by
  refine
    { add := (· + ·)
      zero := (0 : Q2)
      neg := Neg.neg
      sub := fun x y => x + -y
      nsmul := @nsmulRec Q2 ⟨0⟩ ⟨(· + ·)⟩
      zsmul := @zsmulRec Q2 ⟨0⟩ ⟨(· + ·)⟩ ⟨Neg.neg⟩ (@nsmulRec Q2 ⟨0⟩ ⟨(· + ·)⟩)
      add_assoc := ?_
      zero_add := ?_
      add_zero := ?_
      neg_add_cancel := ?_
      add_comm := ?_ } <;>
    intros <;> ext <;> simp <;> ring

instance Q2.commRing : CommRing Q2 := by
  refine
    { Q2.addCommGroup with
      mul := (· * ·)
      one := (1 : Q2)
      npow := @npowRec Q2 ⟨1⟩ ⟨(· * ·)⟩
      left_distrib := ?_
      right_distrib := ?_
      zero_mul := ?_
      mul_zero := ?_
      mul_assoc := ?_
      one_mul := ?_
      mul_one := ?_
      mul_comm := ?_ } <;>
    intros <;> ext <;> simp <;> ring

/-- The amplitude `1/√2 = 0 + (1/2)·√2`, the fixed 50/50 beam-splitter
coefficient of the spec's Split and Merge transforms. -/
def invSqrt2 : Q2 := ⟨0, 1/2⟩

theorem invSqrt2_self_add_self : invSqrt2 * invSqrt2 + invSqrt2 * invSqrt2 = 1 := by
  ext <;> simp [invSqrt2] <;> norm_num

/-- Squared Euclidean norm of a slot-basis amplitude state (an exact value
in `ℚ[√2]`). -/
def normSq : List Q2 → Q2
  | [] => 0
  | x :: t => x * x + normSq t

@[simp]
theorem normSq_nil : normSq [] = 0 := rfl

@[simp]
theorem normSq_cons (x : Q2) (t : List Q2) : normSq (x :: t) = x * x + normSq t := rfl

theorem normSq_append (l₁ l₂ : List Q2) :
    normSq (l₁ ++ l₂) = normSq l₁ + normSq l₂ := by
  induction l₁ with
  | nil => simp
  | cons x t ih => simp [ih]; ring

theorem normSq_set (l : List Q2) :
    ∀ (i : ℕ) (hyp : i < l.length) (y : Q2),
      normSq (l.set i y) = normSq l - l.get ⟨i, hyp⟩ * l.get ⟨i, hyp⟩ + y * y := by
  induction l with
  | nil => intro i hyp y; simp at hyp
  | cons x t ih =>
    intro i hyp y
    cases i with
    | zero => simp [List.set]; ring
    | succ n =>
      have hn : n < t.length := by simpa using hyp
      simp only [List.set, normSq_cons, ih n hn y, List.get]
      ring

theorem normSq_eraseIdx (l : List Q2) :
    ∀ (j : ℕ) (hyp : j < l.length),
      normSq (l.eraseIdx j) = normSq l - l.get ⟨j, hyp⟩ * l.get ⟨j, hyp⟩ := by
  induction l with
  | nil => intro j hyp; simp at hyp
  | cons x t ih =>
    intro j hyp
    cases j with
    | zero => simp [List.eraseIdx]
    | succ n =>
      have hn : n < t.length := by simpa using hyp
      simp only [List.eraseIdx, normSq_cons, ih n hn, List.get]
      ring

/-- Interpretation of a `Q2` amplitude as a real number. -/
noncomputable def Q2.toReal (x : Q2) : ℝ := (x.re : ℝ) + (x.im : ℝ) * Real.sqrt 2

/-- Euclidean norm of a slot-basis amplitude state, as the source's
`quantum_state.norm()` computes it. -/
noncomputable def stateNorm (s : List Q2) : ℝ := Real.sqrt (normSq s).toReal

/-!
Classical data model: positions and movement directions are integer cell
vectors (`pygame.Vector2` values that the game only ever fills with integer
cell coordinates and unit steps).
-/

/-- An integer cell vector (position or movement direction). -/
@[ext]
structure V2 where
  x : ℤ
  y : ℤ
deriving DecidableEq, Repr

/-- One classically rendered part of a superposed ghost (class `Ghost`):
its cell `position` and its `last_move` direction. -/
@[ext]
structure GhostPart where
  position : V2
  last_move : V2
deriving DecidableEq, Repr

/-- The literal splitter-type tag the source compares against
(`splitter.splitterType == "45"`). -/
def t45 : String := "45"

/-- A static splitter tile (`GhostSplitter`): a position and a type tag. -/
@[ext]
structure Splitter where
  position : V2
  splitterType : String
deriving DecidableEq, Repr

/-- The configuration constants of `src/settings.py` (absent from `src/`),
passed explicitly: basis bound `MAX_GHOSTS_PER_STATE` (the spec's `D`),
`GHOST_ATTACK_RADIUS`, `PROB_GHOST_ATTACK` and `GHOST_SPEED`. -/
structure Settings where
  MAX_GHOSTS_PER_STATE : ℕ
  GHOST_ATTACK_RADIUS : ℚ
  PROB_GHOST_ATTACK : ℚ
  GHOST_SPEED : ℚ

/-- `DIR_DICT` of the source, in its key order `L, R, D, U`; the random
draw `np.random.choice(list(DIR_DICT.keys()))` is embedded as a `Fin 4`
index into this order. -/
def DIR_DICT (d : Fin 4) : V2 :=
  match d with
  | 0 => ⟨-1, 0⟩
  | 1 => ⟨1, 0⟩
  | 2 => ⟨0, -1⟩
  | 3 => ⟨0, 1⟩

/-- `Ghost.calculate_move_vector`: with the first uniform draw `r` below
`GHOST_SPEED` the part stays, otherwise it takes the drawn cardinal unit
step. -/
def calculate_move_vector (GHOST_SPEED : ℚ) (r : ℚ) (d : Fin 4) : V2 :=
  if r < GHOST_SPEED then ⟨0, 0⟩ else DIR_DICT d

/-- The `Ghost.__init__` treatment of `last_move`: the Python expression
`last_move if last_move else Vector2(-1, 0)` yields `(-1, 0)` both when no
`last_move` is passed (`None`) and when the passed vector is the falsy zero
vector. -/
def mkGhost (position : V2) (last_move : Option V2) : GhostPart :=
  ⟨position,
    match last_move with
    | none => ⟨-1, 0⟩
    | some v => if v = ⟨0, 0⟩ then ⟨-1, 0⟩ else v⟩

/-- `Ghost.update` for one frame: the random walk vector is computed and the
variable is immediately rebound to `last_move`, which is what the base-class
move is called with; returns the updated part together with the move vector
actually handed to the base class.  The position change itself
(`super().update(moveVector=moveVector)`, in `base_unit.py`, absent from
`src/`) is modelled from the spec as adding the move vector to the cell
position. -/
def Ghost.update (GHOST_SPEED : ℚ) (g : GhostPart) (r : ℚ) (d : Fin 4) :
    GhostPart × V2 :=
  let moveVector := calculate_move_vector GHOST_SPEED r d
  let moveVector' := g.last_move
  (⟨⟨g.position.x + moveVector'.x, g.position.y + moveVector'.y⟩, moveVector'⟩,
    moveVector')

/-- `np.allclose(a, b, 1e-2)` on integer cell vectors: numpy's third
positional argument is `rtol`, so the test is componentwise
`|a - b| ≤ atol + rtol * |b|` with `atol = 1e-8`, `rtol = 1e-2`; stated here
with the denominators cleared (multiplied through by `10^8`). -/
def npAllclose (a b : V2) : Bool :=
  100000000 * |a.x - b.x| ≤ 1 + 1000000 * |b.x| ∧
    100000000 * |a.y - b.y| ≤ 1 + 1000000 * |b.y|

/-- Modelled from the spec: `two_ghost_coming_from_different_sides_of_splitter`
lives in `src/Units/utils.py`, which is absent from `src/`.  Per spec §4.2
step 3 it is a pure function of the two parts' `lastMove` and the splitter
type: for the 45° (diagonal) splitter the complementary arrival pairs are
up/right (and, by the same geometry, down/left); for the axis-aligned type
they are up/down (and left/right). -/
def two_ghost_coming_from_different_sides_of_splitter
    (a b : GhostPart) (t : String) : Bool :=
  if t = t45 then
    (a.last_move = (⟨0, 1⟩ : V2) ∧ b.last_move = (⟨1, 0⟩ : V2)) ∨
      (a.last_move = (⟨1, 0⟩ : V2) ∧ b.last_move = (⟨0, 1⟩ : V2)) ∨
      (a.last_move = (⟨0, -1⟩ : V2) ∧ b.last_move = (⟨-1, 0⟩ : V2)) ∨
      (a.last_move = (⟨-1, 0⟩ : V2) ∧ b.last_move = (⟨0, -1⟩ : V2))
  else
    (a.last_move = (⟨0, 1⟩ : V2) ∧ b.last_move = (⟨0, -1⟩ : V2)) ∨
      (a.last_move = (⟨0, -1⟩ : V2) ∧ b.last_move = (⟨0, 1⟩ : V2)) ∨
      (a.last_move = (⟨-1, 0⟩ : V2) ∧ b.last_move = (⟨1, 0⟩ : V2)) ∨
      (a.last_move = (⟨1, 0⟩ : V2) ∧ b.last_move = (⟨-1, 0⟩ : V2))

/-- Modelled from the spec: `is_in_attack_radius` lives in
`src/Units/utils.py`, which is absent from `src/`.  Per spec §4.3 a part is
a risk contributor when it is within the configured attack radius of the
player: Euclidean distance at most the radius. -/
def is_in_attack_radius (playerPos ghostPos : V2) (radius : ℚ) : Bool :=
  ((playerPos.x - ghostPos.x : ℚ) ^ 2 + (playerPos.y - ghostPos.y : ℚ) ^ 2) ≤
    radius ^ 2

/-- Modelled from the spec: the one-argument form `beam_splitter(state, i)`
of `src/Units/utils.py` (absent from `src/`), the spec's `Split(i)`: the
amplitude in slot `i` is multiplied by `1/√2` and the residual `1/√2` share
is moved into a newly allocated slot at the end of the state. -/
def beam_splitter1 (s : List Q2) (i : ℕ) : List Q2 :=
  if h : i < s.length then
    s.set i (s.get ⟨i, h⟩ * invSqrt2) ++ [s.get ⟨i, h⟩ * invSqrt2]
  else s

/-- Modelled from the spec: the two-argument form `beam_splitter(state, i, j)`
of `src/Units/utils.py` (absent from `src/`), the spec's `Merge(i, j)`: the
adjoint beam splitter projects the two-slot subspace back toward slot `i`
(`aᵢ ↦ (aᵢ + aⱼ)/√2`), slot `j` is removed and the remaining slots close the
gap. -/
def beam_splitter2 (s : List Q2) (i j : ℕ) : List Q2 :=
  if h : i < s.length ∧ j < s.length ∧ i ≠ j then
    (s.set i ((s.get ⟨i, h.1⟩ + s.get ⟨j, h.2.1⟩) * invSqrt2)).eraseIdx j
  else s

/-- A quantum ghost (`QGhost`): the slot-basis amplitude state together with
the ordered collection of visible parts. -/
@[ext]
structure QGhost where
  quantum_state : List Q2
  visible_parts : List GhostPart
deriving DecidableEq

/-- `QGhost.add_visible_ghost`: construct a `Ghost` with the given start
position and optional `last_move` and append it to `visible_parts`
(the render-group registration is display-only and out of scope). -/
def QGhost.add_visible_ghost (g : QGhost) (start_position : V2)
    (last_move : Option V2) : QGhost :=
  ⟨g.quantum_state, g.visible_parts ++ [mkGhost start_position last_move]⟩

/-- `QGhost.__init__`: the source stores `ket([1], MAX_GHOSTS_PER_STATE)` —
the occupation-number state `|1⟩` on the single tensor factor belonging to
the one initial part, i.e. "one ghost at part 0's location" (the same
convention the attack projector `ket([0], ...).dag()` reads it with).  In
the spec's slot basis this is the pure state in slot 0, the one-slot state
`[1]`; the initial part is appended by `add_visible_ghost(start_position)`
with no `last_move`. -/
def QGhost.init (position : V2) : QGhost :=
  QGhost.add_visible_ghost ⟨[1], []⟩ position none

/-- The per-frame scan state of `QGhost.interact_with_splitter`: the
amplitude state, the live parts list and the `seen` index set (kept as the
list of inserted indices). -/
@[ext]
structure ScanState where
  state : List Q2
  parts : List GhostPart
  seen : List ℕ
deriving DecidableEq

/-- Insertion into the `seen` set. -/
def insertSeen (i : ℕ) (s : List ℕ) : List ℕ :=
  if i ∈ s then s else i :: s

/-- The inner loop `for j, other_ghost in enumerate(self.visible_parts[i:])`
of `interact_with_splitter`: every matching offset `j` applies
`beam_splitter(state, i, j)` (note: the offset `j`, not the absolute index
`i + j`), adds `i` and `i + j` to `seen`, and sets the coincidence flag; the
parts list itself is never modified here. -/
def innerLoop (t : String) (this : GhostPart) (i : ℕ) :
    ℕ → List GhostPart → List Q2 × List ℕ × Bool → List Q2 × List ℕ × Bool
  | _, [], acc => acc
  | j, other :: rest, (st, sn, flag) =>
    if two_ghost_coming_from_different_sides_of_splitter this other t then
      innerLoop t this i (j + 1) rest
        (beam_splitter2 st i j, insertSeen i (insertSeen (i + j) sn), true)
    else
      innerLoop t this i (j + 1) rest (st, sn, flag)

/-- The body of the outer part loop of `interact_with_splitter` for index
`i`: skip seen indices; if part `i` sits on the splitter tile (numpy
`allclose` with `rtol = 1e-2`), run the inner coincidence loop over
`visible_parts[i:]`; if no coincidence was found, spawn one new part at the
same position with the reflected direction
`(-1)^(splitterType == "45") * (last_move.y, last_move.x)` and apply the
one-argument `beam_splitter` to slot `i`. -/
def processPart (sp : Splitter) (i : ℕ) (st : ScanState) : ScanState :=
  if i ∈ st.seen then st
  else
    match st.parts.get? i with
    | none => st
    | some this =>
      if npAllclose sp.position this.position then
        let r := innerLoop sp.splitterType this i 0 (st.parts.drop i)
          (st.state, st.seen, false)
        if r.2.2 then ⟨r.1, st.parts, r.2.1⟩
        else
          let lm : V2 :=
            if sp.splitterType = t45 then
              ⟨-this.last_move.y, -this.last_move.x⟩
            else ⟨this.last_move.y, this.last_move.x⟩
          ⟨beam_splitter1 r.1 i,
            st.parts ++ [mkGhost this.position (some lm)], r.2.1⟩
      else st

/-- One splitter's pass of `interact_with_splitter`: the outer loop
enumerates a snapshot `self.visible_parts[:]` taken at the start of this
splitter's pass, so the loop runs over the indices below the entry length
(appends only ever extend the tail, so the live list agrees with the
snapshot on those indices). -/
def scanSplitter (st : ScanState) (sp : Splitter) : ScanState :=
  (List.range st.parts.length).foldl (fun acc i => processPart sp i acc) st

/-- `QGhost.interact_with_splitter`: `seen` starts empty once per call and
persists across the splitter loop. -/
def QGhost.interact_with_splitter (splitters : List Splitter) (g : QGhost) :
    ScanState :=
  splitters.foldl scanSplitter ⟨g.quantum_state, g.visible_parts, []⟩

/-- The source's `p_not_here` for part `i`: the norm of
`(ket([0]).dag() if g == i else qeye(...)) * quantum_state`, the projection
onto "no ghost at part `i`"; in the slot basis that is the norm of the state
with slot `i` zeroed out. -/
noncomputable def p_not_here (state : List Q2) (i : ℕ) : ℝ :=
  stateNorm (state.set i 0)

/-- The accumulation loop of `QGhost.attack`: each enumerated part inside
the attack radius contributes `1 - p_not_here` to `attack_prob`. -/
noncomputable def attackLoop (S : Settings) (state : List Q2) (playerPos : V2) :
    ℕ → List GhostPart → ℝ → ℝ
  | _, [], acc => acc
  | i, gh :: rest, acc =>
    attackLoop S state playerPos (i + 1) rest
      (if is_in_attack_radius playerPos gh.position S.GHOST_ATTACK_RADIUS then
        acc + (1 - p_not_here state i)
      else acc)

/-- `QGhost.attack`: with the first uniform draw at most
`PROB_GHOST_ATTACK`, accumulate the per-part probabilities and compare one
second uniform draw against the unclamped sum; on success the player's
health drops by 1 and the attack sound fires (returned as the Boolean). -/
noncomputable def QGhost.attack (S : Settings) (g : QGhost) (playerPos : V2)
    (health : ℤ) (r1 r2 : ℝ) : ℤ × Bool :=
  if r1 ≤ (S.PROB_GHOST_ATTACK : ℝ) then
    if r2 ≤ attackLoop S g.quantum_state playerPos 0 g.visible_parts 0 then
      (health - 1, true)
    else (health, false)
  else (health, false)

/-- `QGhost.update`: if `len(visible_parts)` exceeds
`MAX_GHOSTS_PER_STATE`, return immediately; otherwise run the splitter
interaction and then the attack on the updated ghost.  Returns the updated
ghost, the player's health, and whether the attack sound fired. -/
noncomputable def QGhost.update (S : Settings) (splitters : List Splitter)
    (g : QGhost) (playerPos : V2) (health : ℤ) (r1 r2 : ℝ) :
    QGhost × ℤ × Bool :=
  if g.visible_parts.length > S.MAX_GHOSTS_PER_STATE then (g, health, false)
  else
    let sc := QGhost.interact_with_splitter splitters g
    let g' : QGhost := ⟨sc.state, sc.parts⟩
    (g', QGhost.attack S g' playerPos health r1 r2)

/-!
General lemmas about the embedded operations.
-/

theorem stateNorm_one : stateNorm [1] = 1 := by
  have h : normSq [1] = 1 := by ext <;> norm_num
  rw [stateNorm, h]
  norm_num [Q2.toReal]

theorem sqrt_two_lt : Real.sqrt 2 < 14143 / 10000 := by
  rw [Real.sqrt_lt' (by norm_num)]
  norm_num

/-- `Split(i)` preserves the squared norm exactly. -/
theorem beam_splitter1_normSq (s : List Q2) (i : ℕ) :
    normSq (beam_splitter1 s i) = normSq s := by
  by_cases h : i < s.length
  · rw [beam_splitter1, dif_pos h, normSq_append, normSq_set s i h]
    simp only [normSq_cons, normSq_nil]
    linear_combination (s.get ⟨i, h⟩ * s.get ⟨i, h⟩) * invSqrt2_self_add_self
  · rw [beam_splitter1, dif_neg h]

/-- `Merge(i, j)` preserves the squared norm exactly when the two merged
slots hold equal amplitudes (the recombining-beam situation produced by a
preceding `Split`). -/
theorem beam_splitter2_normSq (s : List Q2) (i j : ℕ) (hi : i < s.length)
    (hj : j < s.length) (hij : i ≠ j)
    (heq : s.get ⟨i, hi⟩ = s.get ⟨j, hj⟩) :
    normSq (beam_splitter2 s i j) = normSq s := by
  rw [beam_splitter2, dif_pos ⟨hi, hj, hij⟩]
  have hj' : j < (s.set i ((s.get ⟨i, hi⟩ + s.get ⟨j, hj⟩) * invSqrt2)).length := by
    simpa using hj
  rw [normSq_eraseIdx _ j hj', normSq_set s i hi]
  have hget : (s.set i ((s.get ⟨i, hi⟩ + s.get ⟨j, hj⟩) * invSqrt2)).get ⟨j, hj'⟩ =
      s.get ⟨j, hj⟩ := by
    simp [List.get_eq_getElem, List.getElem_set_ne hij]
  rw [hget, ← heq]
  linear_combination (2 * (s.get ⟨i, hi⟩ * s.get ⟨i, hi⟩)) * invSqrt2_self_add_self

/-- An inner coincidence loop that matches nothing changes nothing. -/
theorem innerLoop_no_match (t : String) (gpart : GhostPart) (i : ℕ) :
    ∀ (l : List GhostPart) (j : ℕ) (st : List Q2) (sn : List ℕ) (flag : Bool),
      (∀ x ∈ l,
        two_ghost_coming_from_different_sides_of_splitter gpart x t = false) →
      innerLoop t gpart i j l (st, sn, flag) = (st, sn, flag) := by
  intro l
  induction l with
  | nil => intro j st sn flag _; rfl
  | cons o rest ih =>
    intro j st sn flag h
    have ho := h o (by simp)
    simp only [innerLoop, ho, Bool.false_eq_true, if_false]
    exact ih (j + 1) st sn flag (fun x hx => h x (by simp [hx]))

/-- The attack accumulation loop, in closed form: the sum of the in-radius
parts' presence probabilities, parts enumerated from index `i`. -/
theorem attackLoop_eq (S : Settings) (state : List Q2) (pos : V2) :
    ∀ (l : List GhostPart) (i : ℕ) (acc : ℝ),
      attackLoop S state pos i l acc =
        acc + ((List.enumFrom i l).map (fun p =>
          if is_in_attack_radius pos p.2.position S.GHOST_ATTACK_RADIUS then
            1 - p_not_here state p.1
          else 0)).sum := by
  intro l
  induction l with
  | nil => intro i acc; simp [attackLoop]
  | cons gh rest ih =>
    intro i acc
    by_cases hr : is_in_attack_radius pos gh.position S.GHOST_ATTACK_RADIUS
    · simp [attackLoop, hr, ih (i + 1), List.enumFrom]
      ring
    · simp [attackLoop, hr, ih (i + 1), List.enumFrom]


/-- An inner coincidence loop whose tail matches at exactly one position
`j` (loop counter starting at `j0`) applies one Merge with the slot
arguments `i` and the loop counter `j0 + j`, inserts `i` and `i + (j0 + j)`
into `seen`, sets the flag, and changes nothing else. -/
theorem innerLoop_single_match (t : String) (gpart : GhostPart) (i : ℕ) :
    ∀ (l : List GhostPart) (j0 j : ℕ) (st : List Q2) (sn : List ℕ)
      (other : GhostPart),
      l.get? j = some other →
      two_ghost_coming_from_different_sides_of_splitter gpart other t = true →
      (∀ k x, k ≠ j → l.get? k = some x →
        two_ghost_coming_from_different_sides_of_splitter gpart x t = false) →
      innerLoop t gpart i j0 l (st, sn, false) =
        (beam_splitter2 st i (j0 + j),
          insertSeen i (insertSeen (i + (j0 + j)) sn), true) := by
  intro l
  induction l with
  | nil => intro j0 j st sn other h1 _ _; simp at h1
  | cons o rest ih =>
    intro j0 j st sn other h1 h2 h3
    cases j with
    | zero =>
      rw [List.get?_cons_zero] at h1
      injection h1 with h1
      subst h1
      have hrest : ∀ x ∈ rest,
          two_ghost_coming_from_different_sides_of_splitter gpart x t = false := by
        intro x hx
        obtain ⟨k, hk⟩ := List.mem_iff_get?.mp hx
        exact h3 (k + 1) x (Nat.succ_ne_zero k) (by simpa using hk)
      simp only [innerLoop, h2, if_true]
      rw [innerLoop_no_match t gpart i rest (j0 + 1) (beam_splitter2 st i j0)
        (insertSeen i (insertSeen (i + j0) sn)) true hrest]
      simp
    | succ m =>
      have ho : two_ghost_coming_from_different_sides_of_splitter gpart o t =
          false :=
        h3 0 o (by omega) rfl
      simp only [innerLoop, ho, Bool.false_eq_true, if_false]
      have hstep := ih (j0 + 1) m st sn other (by simpa using h1) h2
        (fun k x hk hx => h3 (k + 1) x (by omega) (by simpa using hx))
      rw [show j0 + 1 + m = j0 + (m + 1) from by omega] at hstep
      exact hstep

/-!
The claims.
-/

/-- Claim C1, counterexample: the Split/Merge sequence
`Split(0); Split(0); Merge(0, 1)` is legal from the initial pure state with
`D = 3` (every Split is taken below capacity, the Merge acts on two distinct
occupied slots) yet drops `‖amplitudeState‖` from `1` to below `1 - 1/1000`,
far outside the `1e-6` tolerance: the second Split leaves the two merged
slots with unequal amplitudes, and the slot removed by Merge then carries
away norm. -/
theorem claim_C1_counterexample :
    stateNorm [1] = 1 ∧
      beam_splitter2 (beam_splitter1 (beam_splitter1 [1] 0) 0) 0 1 =
        [⟨1/2, 1/4⟩, ⟨1/2, 0⟩] ∧
      stateNorm (beam_splitter2 (beam_splitter1 (beam_splitter1 [1] 0) 0) 0 1) <
        1 - 1/1000 := by
  have hseq : beam_splitter2 (beam_splitter1 (beam_splitter1 [1] 0) 0) 0 1 =
      [⟨1/2, 1/4⟩, ⟨1/2, 0⟩] := by
    norm_num [beam_splitter1, beam_splitter2, invSqrt2]
    exact ⟨by ext <;> norm_num, by ext <;> norm_num⟩
  refine ⟨stateNorm_one, hseq, ?_⟩
  rw [hseq]
  have h : normSq [(⟨1/2, 1/4⟩ : Q2), ⟨1/2, 0⟩] = ⟨5/8, 1/4⟩ := by
    ext <;> norm_num
  rw [stateNorm, h]
  rw [show (1 - 1/1000 : ℝ) = 999/1000 by norm_num]
  rw [Real.sqrt_lt' (by norm_num)]
  simp only [Q2.toReal]
  push_cast
  nlinarith [sqrt_two_lt]

/-- Claim C1, amended: a Split step always preserves the Euclidean norm of
the amplitude state exactly; a Merge step preserves it exactly when the two
merged slots hold equal amplitudes (which is how the engine reaches it in
the recombining-beam situation) — but not, as the claim has it, for every
sequence of Split/Merge operations. -/
theorem claim_C1_amended :
    (∀ (s : List Q2) (i : ℕ), stateNorm (beam_splitter1 s i) = stateNorm s) ∧
      ∀ (s : List Q2) (i j : ℕ) (hi : i < s.length) (hj : j < s.length),
        i ≠ j → s.get ⟨i, hi⟩ = s.get ⟨j, hj⟩ →
          stateNorm (beam_splitter2 s i j) = stateNorm s := by
  constructor
  · intro s i
    rw [stateNorm, stateNorm, beam_splitter1_normSq]
  · intro s i j hi hj hij heq
    rw [stateNorm, stateNorm, beam_splitter2_normSq s i j hi hj hij heq]

/-- Claim C1, witness: the amended theorem applied at `Split(0)` on the
initial pure state and at `Merge(0, 1)` on the balanced two-slot state
`[1/√2, 1/√2]` it produces. -/
theorem claim_C1_witness :
    stateNorm (beam_splitter1 [1] 0) = stateNorm [1] ∧
      stateNorm (beam_splitter2 [invSqrt2, invSqrt2] 0 1) =
        stateNorm [invSqrt2, invSqrt2] :=
  ⟨claim_C1_amended.1 [1] 0,
    claim_C1_amended.2 [invSqrt2, invSqrt2] 0 1 (by decide) (by decide)
      (by decide) rfl⟩

/-- Claim C2, amended: whenever the coincidence test succeeds for part `i`
(not yet seen, on the splitter tile) and the part at absolute index `i + j`
(its unique partner in the scan over `visibleParts[i:]`, at offset `j`), the
engine applies the Merge transform with the slot arguments `i` and the scan
offset `j` (not the partner's absolute index `i + j`), marks both indices
`i` and `i + j` seen for the frame, and spawns no new part — but it leaves
`visibleParts` unchanged: neither part is removed. -/
theorem claim_C2_amended (sp : Splitter) (st : ScanState) (i j : ℕ)
    (gpart other : GhostPart)
    (h0 : i ∉ st.seen)
    (h1 : st.parts.get? i = some gpart)
    (h2 : npAllclose sp.position gpart.position = true)
    (hj1 : st.parts.get? (i + j) = some other)
    (hj2 : two_ghost_coming_from_different_sides_of_splitter gpart other
      sp.splitterType = true)
    (hj3 : ∀ k x, k ≠ j → st.parts.get? (i + k) = some x →
      two_ghost_coming_from_different_sides_of_splitter gpart x
        sp.splitterType = false) :
    processPart sp i st =
      ⟨beam_splitter2 st.state i j, st.parts,
        insertSeen i (insertSeen (i + j) st.seen)⟩ := by
  have hd1 : (st.parts.drop i).get? j = some other := by
    rw [List.get?_eq_getElem?, List.getElem?_drop, ← List.get?_eq_getElem?]
    exact hj1
  have hd3 : ∀ k x, k ≠ j → (st.parts.drop i).get? k = some x →
      two_ghost_coming_from_different_sides_of_splitter gpart x
        sp.splitterType = false := by
    intro k x hk hx
    rw [List.get?_eq_getElem?, List.getElem?_drop, ← List.get?_eq_getElem?] at hx
    exact hj3 k x hk hx
  have hloop := innerLoop_single_match sp.splitterType gpart i
    (st.parts.drop i) 0 j st.state st.seen other hd1 hj2 hd3
  rw [processPart, if_neg h0, h1]
  simp only [h2, if_true, hloop]
  simp

/-- Claim C2, witness: the amended theorem at part index `i = 1` and scan
offset `j = 1`, where the offset differs from the partner's absolute index
`2`: a three-part ghost whose middle part sits on the 45° tile moving up,
with its complementary partner (moving right) at index `2`.  The Merge
transform is applied with the slot arguments `(1, 1)`, indices `1` and `2`
are marked seen, and all three parts stay. -/
theorem claim_C2_witness :
    processPart ⟨⟨0, 0⟩, t45⟩ 1
        ⟨[invSqrt2, invSqrt2, invSqrt2],
          [⟨⟨5, 5⟩, ⟨1, 0⟩⟩, ⟨⟨0, 0⟩, ⟨0, 1⟩⟩, ⟨⟨3, 3⟩, ⟨1, 0⟩⟩], []⟩ =
      ⟨beam_splitter2 [invSqrt2, invSqrt2, invSqrt2] 1 1,
        [⟨⟨5, 5⟩, ⟨1, 0⟩⟩, ⟨⟨0, 0⟩, ⟨0, 1⟩⟩, ⟨⟨3, 3⟩, ⟨1, 0⟩⟩], [1, 2]⟩ := by
  have h := claim_C2_amended ⟨⟨0, 0⟩, t45⟩
    ⟨[invSqrt2, invSqrt2, invSqrt2],
      [⟨⟨5, 5⟩, ⟨1, 0⟩⟩, ⟨⟨0, 0⟩, ⟨0, 1⟩⟩, ⟨⟨3, 3⟩, ⟨1, 0⟩⟩], []⟩ 1 1
    ⟨⟨0, 0⟩, ⟨0, 1⟩⟩ ⟨⟨3, 3⟩, ⟨1, 0⟩⟩ (by decide) rfl (by decide) rfl
    (by decide)
    (fun k x hk hx => by
      match k with
      | 0 =>
        have hx' : some (⟨⟨0, 0⟩, ⟨0, 1⟩⟩ : GhostPart) = some x := hx
        injection hx' with h
        subst h
        decide
      | 1 => exact absurd rfl hk
      | n + 2 =>
        rw [show 1 + (n + 2) = n + 3 from by omega] at hx
        simp [List.get?] at hx)
  simpa [insertSeen] using h

/-- Claim C2, counterexample: at a 45° splitter at the origin, the parts
moving up and moving right (both on the tile) pass the coincidence test and
the Merge transform is applied (the state collapses back to the pure state
`[1]` and both indices are marked seen), yet `visibleParts` still holds both
parts afterwards — they are not removed as the claim states. -/
theorem claim_C2_counterexample :
    two_ghost_coming_from_different_sides_of_splitter
        ⟨⟨0, 0⟩, ⟨0, 1⟩⟩ ⟨⟨0, 0⟩, ⟨1, 0⟩⟩ t45 = true ∧
      QGhost.interact_with_splitter [⟨⟨0, 0⟩, t45⟩]
          ⟨[invSqrt2, invSqrt2], [⟨⟨0, 0⟩, ⟨0, 1⟩⟩, ⟨⟨0, 0⟩, ⟨1, 0⟩⟩]⟩ =
        ⟨[1], [⟨⟨0, 0⟩, ⟨0, 1⟩⟩, ⟨⟨0, 0⟩, ⟨1, 0⟩⟩], [0, 1]⟩ := by
  constructor
  · decide
  · norm_num [QGhost.interact_with_splitter, scanSplitter, processPart,
      innerLoop, insertSeen, npAllclose,
      two_ghost_coming_from_different_sides_of_splitter, beam_splitter1,
      beam_splitter2, mkGhost, t45, List.range_succ, List.range_zero]
    ext <;> norm_num [invSqrt2]

/-- Claim C3: with the attack-check draw `r1` at most `PROB_GHOST_ATTACK`,
the resolver sums, over exactly the visible parts in the attack radius of
the player, the presence probabilities `1 - p_not_here` (where `p_not_here`
is the norm of the amplitude state with the part's slot zeroed out), uses
the unclamped sum directly as the Bernoulli parameter against the single
second draw `r2`, and on success decrements health by exactly 1 and fires
the attack sound — so the attack fires at most once per ghost per frame and
health moves by exactly one step. -/
theorem claim_C3_attack (S : Settings) (g : QGhost) (playerPos : V2)
    (health : ℤ) (r1 r2 : ℝ) :
    ((QGhost.attack S g playerPos health r1 r2).2 = true ↔
      r1 ≤ (S.PROB_GHOST_ATTACK : ℝ) ∧
        r2 ≤ ((List.enumFrom 0 g.visible_parts).map (fun p =>
          if is_in_attack_radius playerPos p.2.position S.GHOST_ATTACK_RADIUS then
            1 - p_not_here g.quantum_state p.1
          else 0)).sum) ∧
      (QGhost.attack S g playerPos health r1 r2).1 =
        (if (QGhost.attack S g playerPos health r1 r2).2 = true then health - 1
          else health) := by
  rw [QGhost.attack, attackLoop_eq S g.quantum_state playerPos g.visible_parts 0 0]
  by_cases h1 : r1 ≤ (S.PROB_GHOST_ATTACK : ℝ)
  · by_cases h2 : r2 ≤ ((List.enumFrom 0 g.visible_parts).map (fun p =>
        if is_in_attack_radius playerPos p.2.position S.GHOST_ATTACK_RADIUS then
          1 - p_not_here g.quantum_state p.1
        else 0)).sum
    · simp only [zero_add] at h2 ⊢
      simp [h1, h2]
    · simp only [zero_add] at h2 ⊢
      simp [h1, h2]
  · simp [h1]

/-- Claim C4: a part that is on the splitter tile, is not yet seen, and has
no coincidence partner anywhere in `visibleParts[i:]` (and a nonzero
`lastMove`, as every reachable part has) spawns exactly one new part at the
same position whose `lastMove` is the axis swap `(y, x)` of its own,
negated exactly when the splitter type is `"45"`; the Split transform is
applied to slot `i`; `seen` is untouched.  In particular the spec's simple
split scenario holds: one part at a 45° splitter moving up `(0, 1)` yields
two visible parts, the new part's `lastMove` the swapped and negated vector
`(-1, 0)`, and the amplitude state `[1/√2, 1/√2]` of squared norm 1. -/
theorem claim_C4_split :
    (∀ (sp : Splitter) (st : ScanState) (i : ℕ) (gpart : GhostPart),
      i ∉ st.seen → st.parts.get? i = some gpart →
      npAllclose sp.position gpart.position = true →
      (∀ x ∈ st.parts.drop i,
        two_ghost_coming_from_different_sides_of_splitter gpart x
          sp.splitterType = false) →
      gpart.last_move ≠ ⟨0, 0⟩ →
      processPart sp i st =
        ⟨beam_splitter1 st.state i,
          st.parts ++ [⟨gpart.position,
            if sp.splitterType = t45 then
              ⟨-gpart.last_move.y, -gpart.last_move.x⟩
            else ⟨gpart.last_move.y, gpart.last_move.x⟩⟩],
          st.seen⟩) ∧
      QGhost.interact_with_splitter [⟨⟨0, 0⟩, t45⟩] ⟨[1], [⟨⟨0, 0⟩, ⟨0, 1⟩⟩]⟩ =
        ⟨[invSqrt2, invSqrt2], [⟨⟨0, 0⟩, ⟨0, 1⟩⟩, ⟨⟨0, 0⟩, ⟨-1, 0⟩⟩], []⟩ ∧
      normSq [invSqrt2, invSqrt2] = 1 := by
  refine ⟨?_, ?_, ?_⟩
  · intro sp st i gpart h0 h1 h2 h3 h4
    have hloop := innerLoop_no_match sp.splitterType gpart i (st.parts.drop i) 0
      st.state st.seen false h3
    have hlm : (if sp.splitterType = t45 then
        (⟨-gpart.last_move.y, -gpart.last_move.x⟩ : V2)
      else ⟨gpart.last_move.y, gpart.last_move.x⟩) ≠ ⟨0, 0⟩ := by
      intro hc
      apply h4
      split_ifs at hc with ht <;>
        simp only [V2.mk.injEq] at hc <;>
        · ext <;> simp <;> omega
    rw [processPart, if_neg h0, h1]
    simp only [h2, if_true, hloop]
    simp only [Bool.false_eq_true, if_false, mkGhost, if_neg hlm]
  · norm_num [QGhost.interact_with_splitter, scanSplitter, processPart,
      innerLoop, insertSeen, npAllclose,
      two_ghost_coming_from_different_sides_of_splitter, beam_splitter1,
      beam_splitter2, mkGhost, t45, List.range_succ, List.range_zero]
  · ext <;> norm_num [invSqrt2]

/-- Claim C4, witness: the general split branch applied to the concrete
one-part ghost of the scenario (45° splitter at the origin, part moving
up). -/
theorem claim_C4_witness :
    processPart ⟨⟨0, 0⟩, t45⟩ 0 ⟨[1], [⟨⟨0, 0⟩, ⟨0, 1⟩⟩], []⟩ =
      ⟨beam_splitter1 [1] 0,
        [⟨⟨0, 0⟩, ⟨0, 1⟩⟩, ⟨⟨0, 0⟩, ⟨-1, 0⟩⟩], []⟩ := by
  have h := claim_C4_split.1 ⟨⟨0, 0⟩, t45⟩ ⟨[1], [⟨⟨0, 0⟩, ⟨0, 1⟩⟩], []⟩ 0
    ⟨⟨0, 0⟩, ⟨0, 1⟩⟩ (by decide) rfl (by decide) (by decide) (by decide)
  simpa using h

/-- Claim C5: if a ghost enters the frame with more visible parts than
`MAX_GHOSTS_PER_STATE`, `update` does nothing at all: no splitter
interaction, no attack, no health change, no sound, and no fault. -/
theorem claim_C5_guard (S : Settings) (splitters : List Splitter) (g : QGhost)
    (playerPos : V2) (health : ℤ) (r1 r2 : ℝ)
    (h : g.visible_parts.length > S.MAX_GHOSTS_PER_STATE) :
    QGhost.update S splitters g playerPos health r1 r2 = (g, health, false) := by
  rw [QGhost.update, if_pos h]

/-- Claim C5, witness: the spec's capacity-guard scenario, `D = 2` with
three visible parts forced in: `update` returns the ghost, the health and
the sound flag unchanged. -/
theorem claim_C5_witness :
    QGhost.update ⟨2, 1, 1/2, 1/2⟩ [⟨⟨0, 0⟩, t45⟩]
        ⟨[1], [⟨⟨0, 0⟩, ⟨0, 1⟩⟩, ⟨⟨1, 1⟩, ⟨0, 1⟩⟩, ⟨⟨2, 2⟩, ⟨0, 1⟩⟩]⟩
        ⟨0, 0⟩ 7 0 0 =
      (⟨[1], [⟨⟨0, 0⟩, ⟨0, 1⟩⟩, ⟨⟨1, 1⟩, ⟨0, 1⟩⟩, ⟨⟨2, 2⟩, ⟨0, 1⟩⟩]⟩, 7, false) :=
  claim_C5_guard ⟨2, 1, 1/2, 1/2⟩ [⟨⟨0, 0⟩, t45⟩]
    ⟨[1], [⟨⟨0, 0⟩, ⟨0, 1⟩⟩, ⟨⟨1, 1⟩, ⟨0, 1⟩⟩, ⟨⟨2, 2⟩, ⟨0, 1⟩⟩]⟩
    ⟨0, 0⟩ 7 0 0 (by decide)

/-- Claim C6, amended: the Split bookkeeping (`add_visible_ghost`) always
grows `visibleParts` by exactly one — but it carries no capacity
precondition, so a single `update` frame can grow `visibleParts` past
`MAX_GHOSTS_PER_STATE`; only the next frame's guard then freezes the
ghost. -/
theorem claim_C6_amended (g : QGhost) (start_position : V2)
    (last_move : Option V2) :
    (QGhost.add_visible_ghost g start_position last_move).visible_parts.length =
      g.visible_parts.length + 1 := by
  simp [QGhost.add_visible_ghost]

/-- Claim C6, counterexample: with `D = 2` and exactly two visible parts
(at capacity, so the guard does not fire), one part on a 45° splitter tile
and no coincidence anywhere, a single `update` grows `visibleParts` to
three — `len(visibleParts) ≤ D` is not an invariant and Split is not
blocked at capacity. -/
theorem claim_C6_counterexample :
    ([(⟨⟨0, 0⟩, ⟨0, 1⟩⟩ : GhostPart), ⟨⟨9, 9⟩, ⟨0, 1⟩⟩].length = 2) ∧
      (QGhost.update ⟨2, 1, 1/2, 1/2⟩ [⟨⟨0, 0⟩, t45⟩]
          ⟨[invSqrt2, invSqrt2], [⟨⟨0, 0⟩, ⟨0, 1⟩⟩, ⟨⟨9, 9⟩, ⟨0, 1⟩⟩]⟩
          ⟨5, 5⟩ 7 0 0).1.visible_parts.length = 3 := by
  constructor
  · decide
  · norm_num [QGhost.update, QGhost.interact_with_splitter, scanSplitter,
      processPart, innerLoop, insertSeen, npAllclose,
      two_ghost_coming_from_different_sides_of_splitter, beam_splitter1,
      beam_splitter2, mkGhost, t45, List.range_succ, List.range_zero]

/-- Claim C7 (refuted, code bug): the inner candidate loop
`for j, other_ghost in enumerate(self.visible_parts[i:])` checks neither
the partner's position nor its seen status — against the source's own
comment "check 2 ghosts at the same tile case".  Concretely: a part moving
up on the 45° tile at the origin and a partner moving right at `(9, 9)`,
far from every splitter (`npAllclose` is false for it), still pass the
coincidence test; the Merge transform is applied and both indices are
marked seen. -/
theorem claim_C7_offtile_merge :
    two_ghost_coming_from_different_sides_of_splitter
        ⟨⟨0, 0⟩, ⟨0, 1⟩⟩ ⟨⟨9, 9⟩, ⟨1, 0⟩⟩ t45 = true ∧
      npAllclose ⟨0, 0⟩ ⟨9, 9⟩ = false ∧
      QGhost.interact_with_splitter [⟨⟨0, 0⟩, t45⟩]
          ⟨[invSqrt2, invSqrt2], [⟨⟨0, 0⟩, ⟨0, 1⟩⟩, ⟨⟨9, 9⟩, ⟨1, 0⟩⟩]⟩ =
        ⟨[1], [⟨⟨0, 0⟩, ⟨0, 1⟩⟩, ⟨⟨9, 9⟩, ⟨1, 0⟩⟩], [0, 1]⟩ := by
  refine ⟨by decide, by decide, ?_⟩
  norm_num [QGhost.interact_with_splitter, scanSplitter, processPart,
    innerLoop, insertSeen, npAllclose,
    two_ghost_coming_from_different_sides_of_splitter, beam_splitter1,
    beam_splitter2, mkGhost, t45, List.range_succ, List.range_zero]
  ext <;> norm_num [invSqrt2]

/-- Claim C8: at construction the amplitude state is the pure state
occupying basis slot 0: the slot-basis state is `[1]` — amplitude 1 in slot
0 and no amplitude in any later slot — and its norm is 1. -/
theorem claim_C8_initial_state (position : V2) :
    (QGhost.init position).quantum_state = [1] ∧
      (QGhost.init position).quantum_state.getD 0 0 = 1 ∧
      (∀ k : ℕ, (QGhost.init position).quantum_state.getD (k + 1) 0 = 0) ∧
      stateNorm (QGhost.init position).quantum_state = 1 := by
  refine ⟨rfl, rfl, fun k => ?_, stateNorm_one⟩
  simp [QGhost.init, QGhost.add_visible_ghost, List.getD]

/-- Claim C9, amended: each frame a part's movement is not the random walk:
the `calculate_move_vector` draw is computed and immediately discarded, and
the move actually performed (and kept as `last_move`) is the part's previous
`last_move`, whatever the draws were. -/
theorem claim_C9_amended (GHOST_SPEED : ℚ) (g : GhostPart) (r : ℚ)
    (d : Fin 4) :
    (Ghost.update GHOST_SPEED g r d).2 = g.last_move ∧
      (Ghost.update GHOST_SPEED g r d).1.last_move = g.last_move ∧
      (Ghost.update GHOST_SPEED g r d).1.position =
        ⟨g.position.x + g.last_move.x, g.position.y + g.last_move.y⟩ :=
  ⟨rfl, rfl, rfl⟩

/-- Claim C9, counterexample: with move probability `1/2` and first draw
`0`, the random walk says "stay" (`(0, 0)`), yet a part whose `last_move`
is `(1, 0)` moves by `(1, 0)` this frame — the frame's move is not the
output of the random-walk function. -/
theorem claim_C9_counterexample :
    calculate_move_vector (1/2) 0 0 = ⟨0, 0⟩ ∧
      (Ghost.update (1/2) ⟨⟨0, 0⟩, ⟨1, 0⟩⟩ 0 0).2 = ⟨1, 0⟩ ∧
      (Ghost.update (1/2) ⟨⟨0, 0⟩, ⟨1, 0⟩⟩ 0 0).1.position = ⟨1, 0⟩ ∧
      (Ghost.update (1/2) ⟨⟨0, 0⟩, ⟨1, 0⟩⟩ 0 0).2 ≠
        calculate_move_vector (1/2) 0 0 := by
  refine ⟨?_, rfl, rfl, ?_⟩
  · norm_num [calculate_move_vector]
  · have h : calculate_move_vector (1/2) 0 0 = ⟨0, 0⟩ := by
      norm_num [calculate_move_vector]
    rw [h]
    decide

/-- Claim C10: a `Ghost` constructed without an explicit `last_move`
(including the initial visible part the `QGhost` constructor appends) has
`last_move = (-1, 0)`. -/
theorem claim_C10_default_last_move (position start_position : V2) :
    (mkGhost position none).last_move = ⟨-1, 0⟩ ∧
      (QGhost.init start_position).visible_parts =
        [⟨start_position, ⟨-1, 0⟩⟩] :=
  ⟨rfl, rfl⟩
